import Mathlib

/-!
Verification development for the network-scanner engine of this repository:
`NetworkUtils` (IP-range parsing/enumeration, host discovery), `PortScanner`
(port parsing and scanning) and `IPUtils`.  JS strings are modelled as lists of
characters; JS numbers as exact integers (`Int`/`Nat`), with the 32-bit
coercions `ToInt32`/`ToUint32` of the bitwise operators made explicit and `NaN`
modelled as `none : Option Int`.  Number semantics are exact-integer, faithful
to IEEE doubles for all magnitudes below 2^53 (every value arising from the
inputs used here).
-/

namespace NetScan

/-- Whether an `Except` computation failed (the JS function threw). -/
def isErr {ε α : Type} : Except ε α → Bool
  | .error _ => true
  | .ok _ => false

instance {ε α : Type} [DecidableEq ε] [DecidableEq α] : DecidableEq (Except ε α) := fun x y =>
  match x, y with
  | .error a, .error b =>
    if h : a = b then isTrue (by rw [h]) else isFalse (by intro hh; cases hh; exact h rfl)
  | .ok a, .ok b =>
    if h : a = b then isTrue (by rw [h]) else isFalse (by intro hh; cases hh; exact h rfl)
  | .error _, .ok _ => isFalse (by intro h; cases h)
  | .ok _, .error _ => isFalse (by intro h; cases h)

/-- A JS string, modelled as its list of characters. -/
abbrev JStr := List Char

/-- Shorthand turning a Lean string literal into the modelled JS string. -/
def str (s : String) : JStr := s.data

/-- JS `ToUint32`: the value modulo 2^32, as a natural number. -/
def jsToUint32 (x : Int) : Nat := (x % 4294967296).toNat

/-- Reads a 32-bit pattern (a natural number) as a signed two's-complement value,
as JS `ToInt32` does. -/
def i32ofBits (n : Nat) : Int :=
  if n % 4294967296 < 2147483648 then ((n % 4294967296 : Nat) : Int)
  else ((n % 4294967296 : Nat) : Int) - 4294967296

/-- JS `ToInt32`. -/
def jsToInt32 (x : Int) : Int := i32ofBits (jsToUint32 x)

/-- JS bitwise `&` (both operands coerced by `ToInt32`; result signed 32-bit). -/
def jsAnd (a b : Int) : Int := i32ofBits ((jsToUint32 a).land (jsToUint32 b))

/-- JS bitwise `|`. -/
def jsOr (a b : Int) : Int := i32ofBits ((jsToUint32 a).lor (jsToUint32 b))

/-- JS shift count: `ToUint32(x) & 31` — shift counts are masked to 5 bits. -/
def jsShiftCount (x : Int) : Nat := jsToUint32 x % 32

/-- JS `<<`: left shift of `ToInt32(a)` by the masked count, wrapped to 32 bits. -/
def jsShl (a b : Int) : Int := jsToInt32 (jsToInt32 a * ((2 ^ jsShiftCount b : Nat) : Int))

/-- JS `>>>`: zero-fill right shift; the result is the unsigned 32-bit value. -/
def jsShrU (a b : Int) : Nat := jsToUint32 a / 2 ^ jsShiftCount b

/-- The whitespace recognised by JS `trim`/`parseInt` (ASCII fragment; inputs here
are ASCII). -/
def isJsSpace (c : Char) : Bool := c == ' ' || c == '\t' || c == '\n' || c == '\r'

/-- Decimal digit test. -/
def isDigitCh (c : Char) : Bool := 48 ≤ c.toNat && c.toNat ≤ 57

/-- Value of a digit string (most significant first). -/
def digitsVal (cs : List Char) : Nat := cs.foldl (fun a c => 10 * a + (c.toNat - 48)) 0

/-- The longest leading run of decimal digits, as a number; `none` when empty. -/
def parseDigits (cs : List Char) : Option Nat :=
  let ds := cs.takeWhile isDigitCh
  if ds.isEmpty then none else some (digitsVal ds)

/-- The sign-dispatch step of `parseInt` after whitespace skipping, on a
non-empty remainder. -/
def jsParseIntCore (c : Char) (rest : List Char) : Option Int :=
  if c == '-' then (parseDigits rest).map (fun n => -(n : Int))
  else if c == '+' then (parseDigits rest).map (fun n => ((n : Nat) : Int))
  else (parseDigits (c :: rest)).map (fun n => ((n : Nat) : Int))

/-- JS `parseInt(s, 10)`: skip leading whitespace, optional sign, longest digit
run; `none` models `NaN` (no digits).  Trailing garbage is ignored. -/
def jsParseInt (s : JStr) : Option Int :=
  match s.dropWhile isJsSpace with
  | [] => none
  | c :: rest => jsParseIntCore c rest

/-- JS `String.prototype.trim`. -/
def jsTrim (s : JStr) : JStr := ((s.dropWhile isJsSpace).reverse.dropWhile isJsSpace).reverse

/-- JS `toLowerCase` (ASCII fragment). -/
def jsToLower (s : JStr) : JStr :=
  s.map (fun c => if 65 ≤ c.toNat && c.toNat ≤ 90 then Char.ofNat (c.toNat + 32) else c)

/-- JS `split(sep)` for a single-character separator: `"" ↦ [""]`, and empty
fields are kept. -/
def splitOnChar (sep : Char) : JStr → List JStr
  | [] => [[]]
  | c :: t =>
    if c == sep then [] :: splitOnChar sep t
    else
      match splitOnChar sep t with
      | [] => [[c]]
      | h :: r => (c :: h) :: r

/-- Joins fields with a single-character separator (JS `Array.prototype.join`). -/
def joinSep (sep : Char) : List JStr → JStr
  | [] => []
  | [x] => x
  | x :: y :: r => x ++ sep :: joinSep sep (y :: r)

/-- Fuelled decimal printer (structural recursion so that the kernel can
evaluate it; the fuel in `natToChars` is always sufficient). -/
def natToCharsAux : Nat → Nat → List Char
  | 0, _ => []
  | fuel + 1, n =>
    if n < 10 then [Char.ofNat (48 + n)]
    else natToCharsAux fuel (n / 10) ++ [Char.ofNat (48 + n % 10)]

/-- JS `String(n)` for a nonnegative integer: standard decimal numeral. -/
def natToChars (n : Nat) : List Char := natToCharsAux (n + 1) n

/-- JS substring test `hay.includes(needle)` — prefix check at every suffix. -/
def startsWithSeg : JStr → JStr → Bool
  | _, [] => true
  | [], _ :: _ => false
  | a :: as, b :: bs => a == b && startsWithSeg as bs

/-- JS `String.prototype.includes` for a multi-character needle. -/
def hasSub : JStr → JStr → Bool
  | [], needle => startsWithSeg [] needle
  | c :: t, needle => startsWithSeg (c :: t) needle || hasSub t needle

/-!  NetworkUtils / IPUtils (src/unnamed/part_003 lines 252–263, identical
definitions in src/src/lib/ipUtils.ts lines 28–37). -/

/-- One `reduce` step of `ipToInt`: `(int << 8) + parseInt(octet, 10)`.
`none` is `NaN`; `NaN << 8 = 0` since `ToInt32(NaN) = 0`, and adding `NaN`
gives `NaN`. -/
def ipToIntStep (a : Option Int) (oct : JStr) : Option Int :=
  let shifted : Int :=
    match a with
    | none => 0
    | some x => jsToInt32 (x * 256)
  match jsParseInt oct with
  | none => none
  | some v => some (shifted + v)

/-- Embeds `ipToInt`:
`ip.split('.').reduce((int, octet) => (int << 8) + parseInt(octet, 10), 0) >>> 0`.
The final `>>> 0` is `ToUint32` (`NaN ↦ 0`). -/
def ipToInt (s : JStr) : Nat :=
  match (splitOnChar '.' s).foldl ipToIntStep (some 0) with
  | none => 0
  | some x => jsToUint32 x

/-- Embeds `intToIP`:
`[(int >>> 24), (int >> 16 & 255), (int >> 8 & 255), (int & 255)].join('.')`.
`x >>> 24` is bits 24–31 of the 32-bit pattern; `(x >> k) & 255` extracts bits
k..k+7 (the arithmetic shift's sign fill is cleared by `& 255`). -/
def intToIP (x : Int) : JStr :=
  let n := jsToUint32 x
  natToChars (n / 16777216) ++ '.' :: natToChars (n / 65536 % 256) ++
    '.' :: natToChars (n / 256 % 256) ++ '.' :: natToChars (n % 256)

/-- Embeds the octet pattern of `isValidIP`'s regex
`25[0-5]|2[0-4][0-9]|[01]?[0-9][0-9]?`: exactly the digit strings of length 1–3
whose value is at most 255 (leading zeros allowed). -/
def validOctet (cs : JStr) : Bool :=
  cs.all isDigitCh && decide (1 ≤ cs.length) && decide (cs.length ≤ 3) &&
    decide (digitsVal cs ≤ 255)

/-- Embeds `isValidIP` (anchored regex of four octets separated by dots). -/
def isValidIP (s : JStr) : Bool :=
  match splitOnChar '.' s with
  | [a, b, c, d] => validOctet a && validOctet b && validOctet c && validOctet d
  | _ => false

/-- Result record of `parseIPRange` (`NetworkRange` of `@/types/scanner`). -/
structure NetworkRange where
  startIP : JStr
  endIP : JStr
  cidr : JStr
  totalHosts : Int
deriving DecidableEq, Repr

/-- The CIDR arm of `parseIPRange`, after the mask operands are computed:
`startIP = networkInt & mask`, `endIP = startIP | lowBits`, the returned strings
skip network and broadcast, and `totalHosts = Math.max(0, (endIP - startIP) - 1)`. -/
def cidrRange (input network : JStr) (mask : Int) (lowBits : Nat) : NetworkRange :=
  let networkInt : Int := ((ipToInt network : Nat) : Int)
  let s := jsAnd networkInt mask
  let e := jsOr s (lowBits : Int)
  { startIP := intToIP (s + 1), endIP := intToIP (e - 1), cidr := input,
    totalHosts := max 0 ((e - s) - 1) }

/-- Embeds `NetworkUtils.parseIPRange` (src/unnamed/part_003 lines 14–68).
In the CIDR arm, when `parseInt` of the text after `/` is `NaN`, both
comparisons `prefixNum < 0` and `prefixNum > 32` are false, so parsing
proceeds; both shift counts are then `ToUint32(NaN) & 31 = 0`, which is
what the literal `0` arguments in the `none` branch encode.  For a numeric
p the shift counts are `(32 - p) & 31` and `p & 31`, applied by `jsShl`
and `jsShrU` to `0xffffffff`. -/
def parseIPRange (input0 : JStr) : Except JStr NetworkRange :=
  let input := jsTrim input0
  if input.contains '/' then
    let parts := splitOnChar '/' input
    let network := parts.headD []
    let pfxStr := (parts.drop 1).headD []
    match jsParseInt pfxStr with
    | some p =>
      if p < 0 || 32 < p then Except.error (str "Invalid CIDR prefix length")
      else Except.ok (cidrRange input network (jsShl 4294967295 (32 - p)) (jsShrU 4294967295 p))
    | none => Except.ok (cidrRange input network (jsShl 4294967295 0) (jsShrU 4294967295 0))
  else if input.contains '-' then
    let parts := (splitOnChar '-' input).map jsTrim
    let sIP := parts.headD []
    let eIP := (parts.drop 1).headD []
    let sInt := ipToInt sIP
    let eInt := ipToInt eIP
    if sInt > eInt then Except.error (str "Invalid IP range: start IP is greater than end IP")
    else Except.ok { startIP := sIP, endIP := eIP, cidr := sIP ++ '-' :: eIP,
                     totalHosts := ((eInt : Nat) : Int) - ((sInt : Nat) : Int) + 1 }
  else if isValidIP input then
    Except.ok { startIP := input, endIP := input, cidr := input, totalHosts := 1 }
  else Except.error (str "Invalid IP range format")

/-- Embeds `NetworkUtils.generateIPList` (lines 73–83): the loop
`for (let i = startInt; i <= endInt; i++) ips.push(intToIP(i))`. -/
def generateIPList (range : NetworkRange) : List JStr :=
  let sInt := ipToInt range.startIP
  let eInt := ipToInt range.endIP
  (List.range' sInt (eInt + 1 - sInt)).map (fun i => intToIP ((i : Nat) : Int))

/-!  PortScanner (src/unnamed/part_002) and the shared batch scheduler. -/

/-- The `COMMON_PORTS` table (src/src/components/ScannerForm.tsx lines 335–353,
the `@/types/scanner` module). -/
def COMMON_PORTS : List (Int × JStr) :=
  [(21, str "FTP"), (22, str "SSH"), (23, str "Telnet"), (25, str "SMTP"),
   (53, str "DNS"), (80, str "HTTP"), (110, str "POP3"), (143, str "IMAP"),
   (443, str "HTTPS"), (993, str "IMAPS"), (995, str "POP3S"), (1433, str "MSSQL"),
   (3306, str "MySQL"), (3389, str "RDP"), (5432, str "PostgreSQL"),
   (5900, str "VNC"), (8080, str "HTTP-Alt"), (8443, str "HTTPS-Alt")]

/-- `DEFAULT_SCAN_PORTS` (ScannerForm.tsx line 356). -/
def DEFAULT_SCAN_PORTS : List Int :=
  [21, 22, 23, 25, 53, 80, 135, 139, 443, 445, 993, 995, 1723, 3306, 3389, 5900, 8080]

/-- `COMMON_PORTS[port] || 'Unknown'` (no table entry is the empty string, so the
JS falsy check coincides with key lookup). -/
def commonPortName (port : Int) : JStr :=
  match COMMON_PORTS.lookup port with
  | some s => s
  | none => str "Unknown"

/-- `PortScanResult` of `@/types/scanner`, as filled in by `scanPort`. -/
structure PortScanResult where
  port : Int
  isOpen : Bool
  service : JStr
  responseTime : Option Int
deriving DecidableEq, Repr

/-- Terminal socket event of one `scanPort` probe: the external, nondeterministic
part of the probe.  Exactly one of the three handlers fires, and each calls
`resolve` — the promise never rejects. -/
inductive SocketOutcome where
  | connected (responseTime : Int)
  | timedOut
  | socketError
deriving DecidableEq

/-- Embeds `PortScanner.scanPort` (src/unnamed/part_002 lines 11–49): the result
record produced by whichever socket event fires. -/
def scanPort (port : Int) (oc : SocketOutcome) : PortScanResult :=
  match oc with
  | .connected rt =>
    { port := port, isOpen := true, service := commonPortName port, responseTime := some rt }
  | .timedOut =>
    { port := port, isOpen := false, service := commonPortName port, responseTime := none }
  | .socketError =>
    { port := port, isOpen := false, service := commonPortName port, responseTime := none }

/-- Fuelled body of `chunkArray` (structural recursion so the kernel can
evaluate it; `l.length` steps always suffice since each slice removes at least
one element). -/
def chunkArrayAux {α : Type} : Nat → List α → Nat → List (List α)
  | 0, _, _ => []
  | fuel + 1, l, size =>
    match l with
    | [] => []
    | x :: xs =>
      if size = 0 then []
      else (x :: xs).take size :: chunkArrayAux fuel ((x :: xs).drop size) size

/-- Embeds the private `chunkArray` (identical in PortScanner and NetworkUtils):
consecutive slices of length `size`.  The JS loop does not terminate for
`size = 0`; the claims only use positive sizes. -/
def chunkArray {α : Type} (l : List α) (size : Nat) : List (List α) :=
  chunkArrayAux l.length l size

/-- Ascending numeric sort, embedding `.sort((a, b) => a - b)` (respectively
`a.port - b.port`) via a key: the unique stable ascending reordering, which a
stable insertion sort computes. -/
def sortByKey {α : Type} (key : α → Int) (l : List α) : List α :=
  l.insertionSort (fun a b => key a ≤ key b)

/-- Embeds `PortScanner.scanPorts` (lines 54–82), with the per-probe socket
outcome abstracted as `oc`.  Each chunk's `Promise.all` resolves to the chunk's
results in the chunk's own order, chunks are processed sequentially, and the
aggregate is finally sorted ascending by port. -/
def scanPorts (oc : Int → SocketOutcome) (ports : List Int) (concurrency : Nat) :
    List PortScanResult :=
  sortByKey PortScanResult.port
    (((chunkArray ports concurrency).map (fun ch => ch.map (fun p => scanPort p (oc p)))).flatten)

/-- Embeds `[...new Set(ports)]`: deduplication keeping the first occurrence of
each value, in order (JS `Set` iterates in insertion order). -/
def dedupFirst (l : List Int) : List Int :=
  l.foldl (fun acc x => if x ∈ acc then acc else acc ++ [x]) []

/-- The comma branch's surviving tokens (parsePorts lines 111–113): each
comma-separated token trimmed and parsed, `NaN`s and out-of-range values
silently dropped. -/
def commaPorts (input : JStr) : List Int :=
  (((splitOnChar ',' input).map (fun p => jsParseInt (jsTrim p))).filterMap id).filter
    (fun p => decide (1 ≤ p) && decide (p ≤ 65535))

/-- Embeds `PortScanner.parsePorts` (lines 87–129). -/
def parsePorts (portInput : JStr) : Except JStr (List Int) :=
  let input := jsToLower (jsTrim portInput)
  if input == str "common" then Except.ok DEFAULT_SCAN_PORTS
  else if input.contains '-' then
    let nums := (splitOnChar '-' input).map (fun p => jsParseInt (jsTrim p))
    match nums.headD none, (nums.drop 1).headD none with
    | some a, some b =>
      if a > b || a < 1 || 65535 < b then Except.error (str "Invalid port range")
      else Except.ok ((List.range' 0 (b + 1 - a).toNat).map (fun k => a + (k : Int)))
    | _, _ => Except.error (str "Invalid port range")
  else if input.contains ',' then
    let ports := commaPorts input
    if ports.isEmpty then Except.error (str "No valid ports found")
    else Except.ok (sortByKey id (dedupFirst ports))
  else
    match jsParseInt input with
    | some p =>
      if p < 1 || 65535 < p then Except.error (str "Invalid port number") else Except.ok [p]
    | none => Except.error (str "Invalid port number")

/-!  NetworkUtils probes (src/unnamed/part_003 lines 88–151). -/

/-- `ScanTarget` of `@/types/scanner`, as filled in by `pingHost`; the `Date`
in `lastSeen` is modelled as an abstract timestamp. -/
structure ScanTarget where
  ip : JStr
  isActive : Bool
  responseTime : Option Int
  lastSeen : Option Int
deriving DecidableEq, Repr

/-- Outcome of the external `ping` process for one host: either `execAsync`
resolved with some stdout (with the measured elapsed time and current date),
or it threw (non-zero exit, missing binary, …). -/
inductive PingOutcome where
  | ran (stdout : JStr) (responseTime : Int) (now : Int)
  | failed
deriving DecidableEq

/-- Embeds `NetworkUtils.pingHost` (lines 88–119): success of the probe is read
off stdout (`'Reply from'` on Windows, `'1 received'` elsewhere); any thrown
error is caught and converted to an inactive result. -/
def pingHost (ip : JStr) (isWindows : Bool) (oc : PingOutcome) : ScanTarget :=
  match oc with
  | .ran stdout rt now =>
    let isActive := hasSub stdout (if isWindows then str "Reply from" else str "1 received")
    { ip := ip, isActive := isActive,
      responseTime := if isActive then some rt else none,
      lastSeen := if isActive then some now else none }
  | .failed => { ip := ip, isActive := false, responseTime := none, lastSeen := none }

/-- Embeds `NetworkUtils.discoverNetwork` (lines 124–151): chunked concurrent
pinging; each chunk's `Promise.all` preserves the chunk's order and the chunks
are concatenated in order (no final sort). -/
def discoverNetwork (po : JStr → PingOutcome) (isWindows : Bool) (targets : List JStr)
    (concurrency : Nat) : List ScanTarget :=
  ((chunkArray targets concurrency).map
    (fun ch => ch.map (fun ip => pingHost ip isWindows (po ip)))).flatten

/-!  Progress reporting (part_002 lines 63–79 and part_003 lines 132–150).
Both schedulers share one counter `completed`, incremented once when a probe
finishes; JS runs each continuation (`completed++` plus the callback call)
atomically on the single thread, so the k-th callback invocation (1-based)
always reports `Math.round((k / total) * 100)`, whatever the completion order
of the probes inside a batch.  The float division is modelled exactly over ℚ;
monotonicity and the endpoint value are unaffected (float division and
`Math.round` are monotone, and `total/total` is exact). -/

/-- JS `Math.round`: round half toward positive infinity. -/
def jsMathRound (x : ℚ) : Int := Int.floor (x + 1 / 2)

/-- `Math.round((completed / total) * 100)` — part_002 line 71, part_003 line 140. -/
def progressPercent (completed total : Nat) : Int :=
  jsMathRound (((completed : ℚ) / (total : ℚ)) * 100)

/-- The sequence of percentages handed to the progress callback over a scan of
`total` items: one entry per completed probe, in completion order. -/
def progressSeq (total : Nat) : List Int :=
  (List.range total).map (fun k => progressPercent (k + 1) total)

/-!  Spec-side definitions, used only to state claims against the spec's own
wording (never as embeddings of the code). -/

/-- Claim-side notion for C9: a canonical decimal octet — the standard numeral
(no leading zeros, no sign, no garbage) of a value in [0, 255]. -/
def canonicalOctet (cs : JStr) : Bool :=
  decide (digitsVal cs ≤ 255) && (cs == natToChars (digitsVal cs))

/-- Claim-side notion for C9: a canonical dotted-quad string — four canonical
decimal octets joined by dots. -/
def canonicalQuad (s : JStr) : Bool :=
  match splitOnChar '.' s with
  | [a, b, c, d] => canonicalOctet a && canonicalOctet b && canonicalOctet c && canonicalOctet d
  | _ => false

/-- Numeric value of a dotted-quad, read octet by octet (spec-side). -/
def quadVal (s : JStr) : Nat := (splitOnChar '.' s).foldl (fun a o => 256 * a + digitsVal o) 0

/-- Spec-side predicate, following the claim's words: the text is a single valid
dotted-quad, or `quad/p` with a decimal p between 0 and 32, or
`quadA-quadB` with both quads valid and `quadA <= quadB` as 32-bit integers. -/
def specValidRangeText (s : JStr) : Bool :=
  isValidIP s ||
  (match splitOnChar '/' s with
   | [quad, pfxStr] =>
     isValidIP quad && !pfxStr.isEmpty && pfxStr.all isDigitCh && decide (digitsVal pfxStr ≤ 32)
   | _ => false) ||
  (match splitOnChar '-' s with
   | [a, b] => isValidIP a && isValidIP b && decide (quadVal a ≤ quadVal b)
   | _ => false)

/-!  Helper lemmas. -/

theorem chunkArrayAux_flatten {α : Type} (size : Nat) (hs : 0 < size) :
    ∀ (fuel : Nat) (l : List α), l.length ≤ fuel → (chunkArrayAux fuel l size).flatten = l := by
  intro fuel
  induction fuel with
  | zero =>
    intro l hl
    cases l with
    | nil => rfl
    | cons x xs => simp at hl
  | succ fuel ih =>
    intro l hl
    cases l with
    | nil => rfl
    | cons x xs =>
      simp only [chunkArrayAux]
      rw [if_neg (by omega)]
      simp only [List.flatten_cons]
      rw [ih ((x :: xs).drop size)
        (by simp only [List.length_drop, List.length_cons]
            simp only [List.length_cons] at hl
            omega)]
      exact List.take_append_drop size (x :: xs)

theorem chunkArray_map_flatten {α β : Type} (f : α → β) (l : List α) (size : Nat)
    (hs : 0 < size) : ((chunkArray l size).map (List.map f)).flatten = l.map f := by
  rw [← List.map_flatten]
  unfold chunkArray
  rw [chunkArrayAux_flatten size hs l.length l le_rfl]

theorem scanPort_port (p : Int) (oc : SocketOutcome) : (scanPort p oc).port = p := by
  cases oc <;> rfl

theorem pingHost_ip (ip : JStr) (w : Bool) (oc : PingOutcome) : (pingHost ip w oc).ip = ip := by
  cases oc <;> rfl

theorem discoverNetwork_eq_map (po : JStr → PingOutcome) (w : Bool) (targets : List JStr)
    (c : Nat) (hc : 0 < c) :
    discoverNetwork po w targets c = targets.map (fun ip => pingHost ip w (po ip)) := by
  unfold discoverNetwork
  exact chunkArray_map_flatten _ targets c hc

theorem progressPercent_mono (n : Nat) (hn : 0 < n) {k k' : Nat} (h : k ≤ k') :
    progressPercent k n ≤ progressPercent k' n := by
  unfold progressPercent jsMathRound
  apply Int.floor_le_floor
  have hn' : (0 : ℚ) < (n : ℚ) := by exact_mod_cast hn
  have hq : ((k : ℚ)) ≤ (k' : ℚ) := by exact_mod_cast h
  gcongr

theorem progressPercent_total (n : Nat) (hn : 0 < n) : progressPercent n n = 100 := by
  unfold progressPercent jsMathRound
  have hn' : ((n : ℚ)) ≠ 0 := by
    have : (0 : ℚ) < (n : ℚ) := by exact_mod_cast hn
    exact this.ne'
  rw [div_self hn', one_mul]
  rw [Int.floor_eq_iff]
  constructor <;> norm_num

theorem dedupFirst_go_mem (l : List Int) :
    ∀ (acc : List Int) (a : Int),
      a ∈ l.foldl (fun acc x => if x ∈ acc then acc else acc ++ [x]) acc ↔ a ∈ acc ∨ a ∈ l := by
  induction l with
  | nil => intro acc a; simp
  | cons x t ih =>
    intro acc a
    simp only [List.foldl_cons]
    by_cases hx : x ∈ acc
    · rw [if_pos hx, ih]
      constructor
      · rintro (h | h)
        · exact Or.inl h
        · exact Or.inr (List.mem_cons_of_mem x h)
      · rintro (h | h)
        · exact Or.inl h
        · rcases List.mem_cons.mp h with rfl | h2
          · exact Or.inl hx
          · exact Or.inr h2
    · rw [if_neg hx, ih]
      simp only [List.mem_append, List.mem_singleton, List.mem_cons]
      tauto

theorem dedupFirst_go_nodup (l : List Int) :
    ∀ acc : List Int, acc.Nodup →
      (l.foldl (fun acc x => if x ∈ acc then acc else acc ++ [x]) acc).Nodup := by
  induction l with
  | nil => intro acc h; simpa using h
  | cons x t ih =>
    intro acc h
    simp only [List.foldl_cons]
    by_cases hx : x ∈ acc
    · rw [if_pos hx]; exact ih acc h
    · rw [if_neg hx]
      refine ih _ ?_
      simp [List.nodup_append, h, hx]

theorem mem_dedupFirst {a : Int} {l : List Int} : a ∈ dedupFirst l ↔ a ∈ l := by
  unfold dedupFirst
  rw [dedupFirst_go_mem]
  simp

theorem nodup_dedupFirst (l : List Int) : (dedupFirst l).Nodup :=
  dedupFirst_go_nodup l [] List.nodup_nil

theorem sortByKey_id_sorted_lt {l : List Int} (h : l.Nodup) :
    List.Sorted (· < ·) (sortByKey id l) := by
  have hnd : (sortByKey id l).Nodup := ((List.perm_insertionSort _ l).nodup_iff).mpr h
  have hs : List.Sorted (fun a b : Int => a ≤ b) (sortByKey id l) := by
    haveI : IsTotal Int (fun a b : Int => id a ≤ id b) := ⟨fun a b => le_total _ _⟩
    haveI : IsTrans Int (fun a b : Int => id a ≤ id b) := ⟨fun _ _ _ h1 h2 => le_trans h1 h2⟩
    exact List.sorted_insertionSort _ l
  exact hs.lt_of_le hnd

theorem digit_beq_false {c d : Char} (hc : isDigitCh c = true) (hd : isDigitCh d = false) :
    (c == d) = false := by
  rw [beq_eq_false_iff_ne]
  intro h
  rw [h, hd] at hc
  cases hc

theorem isDigitCh_ofNat {d : Nat} (h : d < 10) : isDigitCh (Char.ofNat (48 + d)) = true := by
  interval_cases d <;> decide

theorem toNat_digit_ofNat {d : Nat} (h : d < 10) : (Char.ofNat (48 + d)).toNat - 48 = d := by
  interval_cases d <;> decide

theorem natToCharsAux_digits (fuel : Nat) :
    ∀ n, n < fuel → (natToCharsAux fuel n).all isDigitCh = true := by
  induction fuel with
  | zero => intro n h; omega
  | succ fuel ih =>
    intro n h
    simp only [natToCharsAux]
    by_cases h10 : n < 10
    · rw [if_pos h10]
      simp [isDigitCh_ofNat h10]
    · rw [if_neg h10, List.all_append]
      have ha := ih (n / 10) (by omega)
      have hb := isDigitCh_ofNat (Nat.mod_lt n (by omega) : n % 10 < 10)
      simp [ha, hb]

theorem natToCharsAux_ne_nil (fuel n : Nat) (h : n < fuel) : natToCharsAux fuel n ≠ [] := by
  cases fuel with
  | zero => omega
  | succ fuel =>
    simp only [natToCharsAux]
    by_cases h10 : n < 10
    · rw [if_pos h10]; simp
    · rw [if_neg h10]; simp

theorem digitsVal_append_digit (xs : List Char) (c : Char) :
    digitsVal (xs ++ [c]) = 10 * digitsVal xs + (c.toNat - 48) := by
  unfold digitsVal
  rw [List.foldl_append]
  rfl

theorem digitsVal_natToCharsAux (fuel : Nat) :
    ∀ n, n < fuel → digitsVal (natToCharsAux fuel n) = n := by
  induction fuel with
  | zero => intro n h; omega
  | succ fuel ih =>
    intro n h
    simp only [natToCharsAux]
    by_cases h10 : n < 10
    · rw [if_pos h10]
      show digitsVal [Char.ofNat (48 + n)] = n
      unfold digitsVal
      simp only [List.foldl_cons, List.foldl_nil]
      have := toNat_digit_ofNat h10
      omega
    · rw [if_neg h10]
      rw [digitsVal_append_digit, ih (n / 10) (by omega),
        toNat_digit_ofNat (Nat.mod_lt n (by omega))]
      omega

theorem natToChars_digits (n : Nat) : (natToChars n).all isDigitCh = true :=
  natToCharsAux_digits (n + 1) n (by omega)

theorem digitsVal_natToChars (n : Nat) : digitsVal (natToChars n) = n :=
  digitsVal_natToCharsAux (n + 1) n (by omega)

theorem natToChars_ne_nil (n : Nat) : natToChars n ≠ [] :=
  natToCharsAux_ne_nil (n + 1) n (by omega)

theorem isJsSpace_of_digit {c : Char} (hc : isDigitCh c = true) : isJsSpace c = false := by
  unfold isJsSpace
  rw [digit_beq_false hc (by decide), digit_beq_false hc (by decide),
    digit_beq_false hc (by decide), digit_beq_false hc (by decide)]
  rfl

theorem dropWhile_isJsSpace_digits {l : List Char} (h : l.all isDigitCh = true) :
    l.dropWhile isJsSpace = l := by
  cases l with
  | nil => rfl
  | cons c t =>
    have h' : isDigitCh c = true ∧ t.all isDigitCh = true := by simpa using h
    rw [List.dropWhile_cons, if_neg (by rw [isJsSpace_of_digit h'.1]; simp)]

theorem takeWhile_digits {l : List Char} (h : l.all isDigitCh = true) :
    l.takeWhile isDigitCh = l := by
  induction l with
  | nil => rfl
  | cons c t ih =>
    have h' : isDigitCh c = true ∧ t.all isDigitCh = true := by simpa using h
    rw [List.takeWhile_cons, if_pos h'.1, ih h'.2]

theorem jsParseInt_digits {c : Char} {t : List Char} (h : (c :: t).all isDigitCh = true) :
    jsParseInt (c :: t) = some ((digitsVal (c :: t) : Nat) : Int) := by
  have h' : isDigitCh c = true ∧ t.all isDigitCh = true := by simpa using h
  unfold jsParseInt
  rw [dropWhile_isJsSpace_digits h]
  show jsParseIntCore c t = some ((digitsVal (c :: t) : Nat) : Int)
  unfold jsParseIntCore
  rw [digit_beq_false h'.1 (by decide)]
  rw [digit_beq_false h'.1 (by decide)]
  simp only [Bool.false_eq_true, if_false]
  unfold parseDigits
  rw [takeWhile_digits h]
  simp only [List.isEmpty_cons, Bool.false_eq_true, if_false]
  rfl

theorem jsParseInt_natToChars (n : Nat) : jsParseInt (natToChars n) = some ((n : Nat) : Int) := by
  cases hct : natToChars n with
  | nil => exact absurd hct (natToChars_ne_nil n)
  | cons c t =>
    have h1 := natToChars_digits n
    have h2 := digitsVal_natToChars n
    rw [hct] at h1 h2
    rw [jsParseInt_digits h1, h2]

theorem splitOnChar_ne_nil (sep : Char) (s : JStr) : splitOnChar sep s ≠ [] := by
  cases s with
  | nil => simp [splitOnChar]
  | cons c t =>
    simp only [splitOnChar]
    by_cases h : c == sep
    · rw [if_pos h]; simp
    · rw [if_neg h]
      cases splitOnChar sep t <;> simp

theorem splitOnChar_no_sep {sep : Char} :
    ∀ {x : JStr}, (∀ c ∈ x, (c == sep) = false) → splitOnChar sep x = [x] := by
  intro x
  induction x with
  | nil => intro h; rfl
  | cons c t ih =>
    intro h
    simp only [splitOnChar]
    rw [if_neg (by rw [h c (List.mem_cons_self c t)]; simp)]
    rw [ih (fun d hd => h d (List.mem_cons_of_mem c hd))]

theorem splitOnChar_append {sep : Char} :
    ∀ {x : JStr} (y : JStr), (∀ c ∈ x, (c == sep) = false) →
      splitOnChar sep (x ++ sep :: y) = x :: splitOnChar sep y := by
  intro x
  induction x with
  | nil =>
    intro y h
    simp only [List.nil_append, splitOnChar]
    rw [if_pos (by simp)]
  | cons c t ih =>
    intro y h
    simp only [List.cons_append, splitOnChar]
    rw [if_neg (by rw [h c (List.mem_cons_self c t)]; simp)]
    rw [List.append_eq, ih y (fun d hd => h d (List.mem_cons_of_mem c hd))]

theorem joinSep_splitOnChar (sep : Char) : ∀ s : JStr, joinSep sep (splitOnChar sep s) = s := by
  intro s
  induction s with
  | nil => rfl
  | cons c t ih =>
    simp only [splitOnChar]
    by_cases h : c == sep
    · rw [if_pos h]
      cases hsp : splitOnChar sep t with
      | nil => exact absurd hsp (splitOnChar_ne_nil sep t)
      | cons u r =>
        rw [hsp] at ih
        show joinSep sep ([] :: u :: r) = c :: t
        simp only [joinSep, List.nil_append]
        rw [ih, eq_of_beq h]
    · rw [if_neg h]
      cases hsp : splitOnChar sep t with
      | nil => exact absurd hsp (splitOnChar_ne_nil sep t)
      | cons u r =>
        rw [hsp] at ih
        cases r with
        | nil =>
          show joinSep sep [c :: u] = c :: t
          simp only [joinSep] at ih ⊢
          rw [ih]
        | cons v r2 =>
          show joinSep sep ((c :: u) :: v :: r2) = c :: t
          simp only [joinSep] at ih ⊢
          rw [List.cons_append, ih]

theorem i32ofBits_emod (n : Nat) : i32ofBits n % 4294967296 = (n : Int) % 4294967296 := by
  unfold i32ofBits
  split <;> omega

theorem jsToUint32_coe (x : Int) : ((jsToUint32 x : Nat) : Int) = x % 4294967296 := by
  unfold jsToUint32
  omega

theorem jsToInt32_emod (x : Int) : jsToInt32 x % 4294967296 = x % 4294967296 := by
  unfold jsToInt32
  rw [i32ofBits_emod, jsToUint32_coe]
  omega

theorem jsToInt32_small {x : Int} (h0 : 0 ≤ x) (h1 : x < 2147483648) : jsToInt32 x = x := by
  unfold jsToInt32 i32ofBits jsToUint32
  split <;> omega

theorem ipToIntStep_some {x : Int} {oct : JStr} {v : Int} (hoct : jsParseInt oct = some v) :
    ipToIntStep (some x) oct = some (jsToInt32 (x * 256) + v) := by
  unfold ipToIntStep
  rw [hoct]

set_option maxRecDepth 4000 in
theorem ipToInt_quad (v1 v2 v3 v4 : Nat) (h1 : v1 ≤ 255) (h2 : v2 ≤ 255) (h3 : v3 ≤ 255)
    (h4 : v4 ≤ 255) :
    ipToInt (natToChars v1 ++ '.' :: (natToChars v2 ++ '.' ::
      (natToChars v3 ++ '.' :: natToChars v4))) =
      v1 * 16777216 + v2 * 65536 + v3 * 256 + v4 := by
  have hd : ∀ v : Nat, ∀ c ∈ natToChars v, (c == '.') = false := by
    intro v c hc
    refine digit_beq_false ?_ (by decide)
    exact List.all_eq_true.mp (natToChars_digits v) c hc
  have hsplit : splitOnChar '.' (natToChars v1 ++ '.' :: (natToChars v2 ++ '.' ::
      (natToChars v3 ++ '.' :: natToChars v4))) =
      [natToChars v1, natToChars v2, natToChars v3, natToChars v4] := by
    rw [splitOnChar_append _ (hd v1), splitOnChar_append _ (hd v2),
      splitOnChar_append _ (hd v3), splitOnChar_no_sep (hd v4)]
  unfold ipToInt
  rw [hsplit]
  simp only [List.foldl_cons, List.foldl_nil]
  rw [ipToIntStep_some (jsParseInt_natToChars v1), ipToIntStep_some (jsParseInt_natToChars v2),
    ipToIntStep_some (jsParseInt_natToChars v3), ipToIntStep_some (jsParseInt_natToChars v4)]
  have e1 : jsToInt32 ((0 : Int) * 256) + (v1 : Int) = (v1 : Int) := by
    rw [zero_mul, jsToInt32_small le_rfl (by norm_num)]
    ring
  rw [e1]
  have e2 : jsToInt32 ((v1 : Int) * 256) = (v1 : Int) * 256 :=
    jsToInt32_small (by positivity) (by omega)
  rw [e2]
  have e3 : jsToInt32 (((v1 : Int) * 256 + (v2 : Int)) * 256) =
      ((v1 : Int) * 256 + (v2 : Int)) * 256 :=
    jsToInt32_small (by positivity) (by omega)
  rw [e3]
  show jsToUint32
      (jsToInt32 (((((v1 : Int) * 256 + (v2 : Int)) * 256 + (v3 : Int))) * 256) + (v4 : Int)) =
    v1 * 16777216 + v2 * 65536 + v3 * 256 + v4
  have hT := jsToInt32_emod ((((v1 : Int) * 256 + (v2 : Int)) * 256 + (v3 : Int)) * 256)
  unfold jsToUint32
  omega

theorem ipToInt_intToIP {n : Nat} (h : n < 4294967296) : ipToInt (intToIP ((n : Nat) : Int)) = n := by
  have hu : jsToUint32 ((n : Nat) : Int) = n := by
    unfold jsToUint32
    omega
  simp only [intToIP, hu]
  simp only [List.append_assoc, List.cons_append]
  rw [ipToInt_quad (n / 16777216) (n / 65536 % 256) (n / 256 % 256) (n % 256)
    (by omega) (by omega) (by omega) (by omega)]
  omega

theorem canonicalQuad_parts {s : JStr} (h : canonicalQuad s = true) :
    ∃ a b c d, splitOnChar '.' s = [a, b, c, d] ∧ canonicalOctet a = true ∧
      canonicalOctet b = true ∧ canonicalOctet c = true ∧ canonicalOctet d = true := by
  unfold canonicalQuad at h
  cases hsp : splitOnChar '.' s with
  | nil => rw [hsp] at h; simp at h
  | cons a r1 =>
    cases r1 with
    | nil => rw [hsp] at h; simp at h
    | cons b r2 =>
      cases r2 with
      | nil => rw [hsp] at h; simp at h
      | cons c r3 =>
        cases r3 with
        | nil => rw [hsp] at h; simp at h
        | cons d r4 =>
          cases r4 with
          | cons e r5 => rw [hsp] at h; simp at h
          | nil =>
            rw [hsp] at h
            simp only [Bool.and_eq_true] at h
            exact ⟨a, b, c, d, rfl, h.1.1.1, h.1.1.2, h.1.2, h.2⟩

theorem canonicalOctet_parts {a : JStr} (h : canonicalOctet a = true) :
    digitsVal a ≤ 255 ∧ a = natToChars (digitsVal a) := by
  unfold canonicalOctet at h
  simp only [Bool.and_eq_true, decide_eq_true_eq, beq_iff_eq] at h
  exact h

theorem intToIP_ipToInt {s : JStr} (h : canonicalQuad s = true) :
    intToIP ((ipToInt s : Nat) : Int) = s := by
  obtain ⟨a, b, c, d, hsp, hca, hcb, hcc, hcd⟩ := canonicalQuad_parts h
  obtain ⟨hva, haeq⟩ := canonicalOctet_parts hca
  obtain ⟨hvb, hbeq⟩ := canonicalOctet_parts hcb
  obtain ⟨hvc, hceq⟩ := canonicalOctet_parts hcc
  obtain ⟨hvd, hdeq⟩ := canonicalOctet_parts hcd
  have hjoin : s = a ++ '.' :: (b ++ '.' :: (c ++ '.' :: d)) := by
    have hj := joinSep_splitOnChar '.' s
    rw [hsp] at hj
    simp only [joinSep] at hj
    exact hj.symm
  rw [hjoin, haeq, hbeq, hceq, hdeq,
    ipToInt_quad (digitsVal a) (digitsVal b) (digitsVal c) (digitsVal d) hva hvb hvc hvd]
  have hu : jsToUint32 ((digitsVal a * 16777216 + digitsVal b * 65536 + digitsVal c * 256 +
      digitsVal d : Nat) : Int) =
      digitsVal a * 16777216 + digitsVal b * 65536 + digitsVal c * 256 + digitsVal d := by
    unfold jsToUint32
    omega
  simp only [intToIP, hu]
  simp only [List.append_assoc, List.cons_append]
  rw [show (digitsVal a * 16777216 + digitsVal b * 65536 + digitsVal c * 256 + digitsVal d) /
      16777216 = digitsVal a from by omega]
  rw [show (digitsVal a * 16777216 + digitsVal b * 65536 + digitsVal c * 256 + digitsVal d) /
      65536 % 256 = digitsVal b from by omega]
  rw [show (digitsVal a * 16777216 + digitsVal b * 65536 + digitsVal c * 256 + digitsVal d) /
      256 % 256 = digitsVal c from by omega]
  rw [show (digitsVal a * 16777216 + digitsVal b * 65536 + digitsVal c * 256 + digitsVal d) %
      256 = digitsVal d from by omega]

/-!  Claims. -/

/-- C1 (status: code_bug).  The claim requires `parseIPRange` on `quad/p` for all
`0 ≤ p ≤ 32` to return the usable interval of the real mask, with `/31` and
`/32` clamped to `totalHosts = 0`.  The `/24` conjunct shows the embedding
agreeing with the claim's own example; the second conjunct evaluates the code
at the failing input `128.0.0.0/32`, where the JS shift-count masking
(`0xffffffff >>> 32 = 0xffffffff`) makes the computed broadcast
`255.255.255.255`, so the code returns `totalHosts = 2147483646` and
`endIP = 255.255.255.254` instead of the claimed clamped zero-host interval. -/
theorem C1_cidr_slash32_miscomputed :
    parseIPRange (str "192.168.1.0/24") =
      Except.ok { startIP := str "192.168.1.1", endIP := str "192.168.1.254",
                  cidr := str "192.168.1.0/24", totalHosts := 254 } ∧
    parseIPRange (str "128.0.0.0/32") =
      Except.ok { startIP := str "128.0.0.1", endIP := str "255.255.255.254",
                  cidr := str "128.0.0.0/32", totalHosts := 2147483646 } :=
  ⟨by decide, by decide⟩

/-- C2: for every outcome of the individual probes and every positive
concurrency, the ports of `scanPorts`'s aggregate list are a permutation of the
input ports (one entry per input item, no duplicates, no omissions), the list
is sorted ascending by port number, and `discoverNetwork` returns exactly one
entry per input address. -/
theorem C2_one_result_per_input
    (oc : Int → SocketOutcome) (po : JStr → PingOutcome) (w : Bool)
    (ports : List Int) (targets : List JStr) (cp ch : Nat) (hcp : 0 < cp) (hch : 0 < ch) :
    ((scanPorts oc ports cp).map PortScanResult.port).Perm ports ∧
    List.Sorted (fun a b => a.port ≤ b.port) (scanPorts oc ports cp) ∧
    (discoverNetwork po w targets ch).map ScanTarget.ip = targets := by
  refine ⟨?_, ?_, ?_⟩
  · unfold scanPorts sortByKey
    rw [chunkArray_map_flatten (fun p => scanPort p (oc p)) ports cp hcp]
    refine ((List.perm_insertionSort _ _).map PortScanResult.port).trans ?_
    rw [List.map_map]
    simp only [Function.comp_def, scanPort_port, List.map_id']
    exact List.Perm.refl ports
  · unfold scanPorts sortByKey
    haveI : IsTotal PortScanResult (fun a b => a.port ≤ b.port) := ⟨fun a b => le_total _ _⟩
    haveI : IsTrans PortScanResult (fun a b => a.port ≤ b.port) :=
      ⟨fun _ _ _ h1 h2 => le_trans h1 h2⟩
    exact List.sorted_insertionSort _ _
  · rw [discoverNetwork_eq_map po w targets ch hch, List.map_map]
    simp only [Function.comp_def, pingHost_ip, List.map_id']

/-- Witness for C2 at a concrete scan. -/
theorem C2_one_result_per_input_witness :
    ((scanPorts (fun _ => SocketOutcome.timedOut) [443, 22, 80] 2).map
      PortScanResult.port).Perm [443, 22, 80] ∧
    List.Sorted (fun a b => a.port ≤ b.port)
      (scanPorts (fun _ => SocketOutcome.timedOut) [443, 22, 80] 2) ∧
    (discoverNetwork (fun _ => PingOutcome.failed) false
      [str "10.0.0.1", str "10.0.0.2"] 3).map ScanTarget.ip = [str "10.0.0.1", str "10.0.0.2"] :=
  C2_one_result_per_input _ _ false _ _ 2 3 (by decide) (by decide)

/-- C4 (status: code_bug).  The claim requires `enumerate(parse(text))` to hold
exactly `totalHosts` addresses for every valid CIDR.  The `/24` conjuncts show
this holding at the claim's mid-range example; at the failing input
`1.2.3.4/32` the parsed interval is `1.2.3.5 .. 255.255.255.254` (the `/32`
shift-count bug of C1), so the enumeration holds 4 278 058 234 addresses while
`totalHosts` is 0. -/
theorem C4_enumeration_count_mismatch :
    ∃ r24 r32 : NetworkRange,
      parseIPRange (str "192.168.1.0/24") = Except.ok r24 ∧
      (generateIPList r24).length = 254 ∧ r24.totalHosts = 254 ∧
      parseIPRange (str "1.2.3.4/32") = Except.ok r32 ∧
      (generateIPList r32).length = 4278058234 ∧ r32.totalHosts = 0 := by
  have len : ∀ r : NetworkRange,
      (generateIPList r).length = ipToInt r.endIP + 1 - ipToInt r.startIP := by
    intro r
    unfold generateIPList
    simp only [List.length_map, List.length_range']
  refine ⟨{ startIP := str "192.168.1.1", endIP := str "192.168.1.254",
            cidr := str "192.168.1.0/24", totalHosts := 254 },
          { startIP := str "1.2.3.5", endIP := str "255.255.255.254",
            cidr := str "1.2.3.4/32", totalHosts := 0 },
          by decide, ?_, by decide, by decide, ?_, by decide⟩
  · rw [len]; decide
  · rw [len]; decide

/-- C5: over a scan of `n > 0` items, the progress callback fires once per
completed probe (the percentage sequence has length `n`), the reported
percentages `round(100 * completedCount / totalCount)` are monotonically
non-decreasing, and the final reported value is exactly 100.  The k-th report
is completion-order independent because the shared `completed` counter is
incremented exactly once per finished probe. -/
theorem C5_progress_monotone_to_100 (n : Nat) (hn : 0 < n) :
    (progressSeq n).length = n ∧
    List.Sorted (· ≤ ·) (progressSeq n) ∧
    (progressSeq n).getLast? = some 100 := by
  refine ⟨by simp [progressSeq], ?_, ?_⟩
  · unfold progressSeq
    rw [List.Sorted, List.pairwise_map]
    exact (List.pairwise_lt_range n).imp (fun hab => progressPercent_mono n hn (by omega))
  · obtain ⟨m, rfl⟩ : ∃ m, n = m + 1 := ⟨n - 1, by omega⟩
    unfold progressSeq
    rw [List.range_succ, List.map_append, List.map_singleton, List.getLast?_concat]
    rw [progressPercent_total (m + 1) (by omega)]

/-- Witness for C5 at a four-probe scan. -/
theorem C5_progress_monotone_to_100_witness :
    (progressSeq 4).length = 4 ∧
    List.Sorted (· ≤ ·) (progressSeq 4) ∧
    (progressSeq 4).getLast? = some 100 :=
  C5_progress_monotone_to_100 4 (by decide)

/-- C8: `scanPort` and `pingHost` are total on every probe outcome (no error
escapes to the caller); on timeout or socket/command error the result has
`isOpen = false` (resp. `isActive = false`) and no latency, and the `service`
field is always `COMMON_PORTS[port] || 'Unknown'`, independent of the outcome. -/
theorem C8_probe_errors_become_results :
    (∀ (port : Int) (oc : SocketOutcome), (scanPort port oc).service = commonPortName port) ∧
    (∀ (port : Int) (oc : SocketOutcome), (∀ rt, oc ≠ SocketOutcome.connected rt) →
      scanPort port oc =
        { port := port, isOpen := false, service := commonPortName port, responseTime := none }) ∧
    (∀ (ip : JStr) (w : Bool),
      pingHost ip w PingOutcome.failed =
        { ip := ip, isActive := false, responseTime := none, lastSeen := none }) ∧
    (∀ (ip : JStr) (w : Bool) (oc : PingOutcome),
      (pingHost ip w oc).isActive = false → (pingHost ip w oc).responseTime = none) := by
  refine ⟨fun port oc => by cases oc <;> rfl, fun port oc h => ?_, fun ip w => rfl,
          fun ip w oc h => ?_⟩
  · cases oc with
    | connected rt => exact absurd rfl (h rt)
    | timedOut => rfl
    | socketError => rfl
  · cases oc with
    | failed => rfl
    | ran so rt now =>
      cases hc : hasSub so (if w then str "Reply from" else str "1 received") with
      | true => simp [pingHost, hc] at h
      | false => simp [pingHost, hc]

/-- Witness for C8 at concrete outcomes. -/
theorem C8_probe_errors_become_results_witness :
    scanPort 8080 SocketOutcome.timedOut =
      { port := 8080, isOpen := false, service := commonPortName 8080, responseTime := none } ∧
    (pingHost (str "10.0.0.9") false PingOutcome.failed).responseTime = none :=
  ⟨C8_probe_errors_become_results.2.1 8080 SocketOutcome.timedOut (fun rt h => by cases h),
   C8_probe_errors_become_results.2.2.2 (str "10.0.0.9") false PingOutcome.failed (by decide)⟩

/-- C10: `discoverNetwork` returns its results in exactly the input order — the
i-th entry is the ping result of the i-th input address — for every probe
outcome and positive concurrency (chunking into consecutive batches and
per-batch `Promise.all` both preserve input order). -/
theorem C10_discover_preserves_order (po : JStr → PingOutcome) (w : Bool)
    (targets : List JStr) (c : Nat) (hc : 0 < c) :
    discoverNetwork po w targets c = targets.map (fun ip => pingHost ip w (po ip)) :=
  discoverNetwork_eq_map po w targets c hc

/-- Witness for C10 at a concrete discovery. -/
theorem C10_discover_preserves_order_witness :
    discoverNetwork (fun _ => PingOutcome.failed) true [str "192.168.1.1", str "192.168.1.2"] 50 =
      [str "192.168.1.1", str "192.168.1.2"].map
        (fun ip => pingHost ip true PingOutcome.failed) :=
  C10_discover_preserves_order _ true _ 50 (by decide)

/-- C6: on every comma-form port specification (no dash, not `common`), the
surviving tokens are exactly the trimmed tokens that parse to integers in
[1, 65535]; `parsePorts` fails with the no-valid-ports error exactly when no
token survives, and otherwise returns a strictly ascending list (deduplicated,
sorted) holding exactly the surviving values; in particular
`parsePorts("22,80,80,443") = [22,80,443]`, `parsePorts("abc,80,xyz") = [80]`,
and `parsePorts("abc,xyz")` fails. -/
theorem C6_comma_form_parsing :
    (∀ s : JStr,
      ((jsToLower (jsTrim s)) == str "common") = false →
      (jsToLower (jsTrim s)).contains '-' = false →
      (jsToLower (jsTrim s)).contains ',' = true →
      ((parsePorts s = Except.error (str "No valid ports found") ↔
          commaPorts (jsToLower (jsTrim s)) = []) ∧
        ∀ l, parsePorts s = Except.ok l →
          List.Sorted (· < ·) l ∧ ∀ p, p ∈ l ↔ p ∈ commaPorts (jsToLower (jsTrim s)))) ∧
    parsePorts (str "22,80,80,443") = Except.ok [22, 80, 443] ∧
    parsePorts (str "abc,80,xyz") = Except.ok [80] ∧
    parsePorts (str "abc,xyz") = Except.error (str "No valid ports found") := by
  refine ⟨?_, by decide, by decide, by decide⟩
  intro s h1 h2 h3
  unfold parsePorts
  simp only [h1, h2, h3, Bool.false_eq_true, if_false, if_true]
  by_cases he : commaPorts (jsToLower (jsTrim s)) = []
  · simp [he]
  · rw [if_neg (by simpa [List.isEmpty_iff] using he)]
    constructor
    · simp [he]
    · intro l hl
      have hl' : l = sortByKey id (dedupFirst (commaPorts (jsToLower (jsTrim s)))) := by
        exact (Except.ok.injEq _ _).mp hl.symm
      subst hl'
      refine ⟨sortByKey_id_sorted_lt (nodup_dedupFirst _), fun p => ?_⟩
      unfold sortByKey
      rw [(List.perm_insertionSort _ _).mem_iff, mem_dedupFirst]

/-- Witness for C6 at a concrete comma specification. -/
theorem C6_comma_form_parsing_witness :
    (parsePorts (str "7,3,7") = Except.error (str "No valid ports found") ↔
        commaPorts (jsToLower (jsTrim (str "7,3,7"))) = []) ∧
    ∀ l, parsePorts (str "7,3,7") = Except.ok l →
      List.Sorted (· < ·) l ∧ ∀ p, p ∈ l ↔ p ∈ commaPorts (jsToLower (jsTrim (str "7,3,7"))) :=
  C6_comma_form_parsing.1 (str "7,3,7") (by decide) (by decide) (by decide)

/-- C7: a single-numeric specification (no dash, no comma, `parseInt` yields p)
fails exactly when p is outside [1, 65535]; a dash specification fails exactly
when its two bounds do not both parse to numbers a ≤ b inside [1, 65535]; in
particular `parsePorts("70000")` and `parsePorts("0-70000")` both fail.  (The
code's two checks `a < 1` and `65535 < b` are equivalent to "either bound
outside [1, 65535]" given `a ≤ b`.) -/
theorem C7_single_and_dash_validation :
    (∀ (s : JStr) (p : Int),
      (jsToLower (jsTrim s)).contains '-' = false →
      (jsToLower (jsTrim s)).contains ',' = false →
      jsParseInt (jsToLower (jsTrim s)) = some p →
      (isErr (parsePorts s) = true ↔ (p < 1 ∨ 65535 < p))) ∧
    (∀ s : JStr,
      ((jsToLower (jsTrim s)) == str "common") = false →
      (jsToLower (jsTrim s)).contains '-' = true →
      (isErr (parsePorts s) = true ↔
        ¬∃ a b : Int,
          ((splitOnChar '-' (jsToLower (jsTrim s))).map
            (fun q => jsParseInt (jsTrim q))).headD none = some a ∧
          (((splitOnChar '-' (jsToLower (jsTrim s))).map
            (fun q => jsParseInt (jsTrim q))).drop 1).headD none = some b ∧
          a ≤ b ∧ 1 ≤ a ∧ 1 ≤ b ∧ a ≤ 65535 ∧ b ≤ 65535)) ∧
    parsePorts (str "70000") = Except.error (str "Invalid port number") ∧
    parsePorts (str "0-70000") = Except.error (str "Invalid port range") := by
  refine ⟨?_, ?_, by decide, by decide⟩
  · intro s p h2 h3 hp
    by_cases h1 : (jsToLower (jsTrim s)) == str "common"
    · rw [eq_of_beq h1] at hp
      rw [show jsParseInt (str "common") = none from by decide] at hp
      cases hp
    · unfold parsePorts
      simp only [Bool.not_eq_true] at h1
      simp only [h1, h2, h3, Bool.false_eq_true, if_false, hp]
      by_cases hr : p < 1 ∨ 65535 < p
      · rw [if_pos (by rcases hr with hr | hr <;> simp [hr])]
        simpa [isErr] using hr
      · push_neg at hr
        rw [if_neg (by simp; omega)]
        simpa [isErr] using (by omega : ¬(p < 1 ∨ 65535 < p))
  · intro s h1 h2
    unfold parsePorts
    simp only [h1, h2, Bool.false_eq_true, if_false, if_true]
    cases ha : ((splitOnChar '-' (jsToLower (jsTrim s))).map
        (fun q => jsParseInt (jsTrim q))).headD none with
    | none => simp [isErr, ha]
    | some a =>
      cases hb : (((splitOnChar '-' (jsToLower (jsTrim s))).map
          (fun q => jsParseInt (jsTrim q))).drop 1).headD none with
      | none => simp [isErr, ha, hb]
      | some b =>
        simp only [ha, hb, Option.some.injEq]
        by_cases hr : b < a ∨ a < 1 ∨ 65535 < b
        · rw [if_pos (by simp; omega)]
          simp only [isErr, true_iff]
          push_neg
          intro x y hx hy
          subst hx; subst hy
          omega
        · push_neg at hr
          rw [if_neg (by simp; omega)]
          simp only [isErr, Bool.false_eq_true, false_iff, not_not]
          exact ⟨a, b, rfl, rfl, by omega, by omega, by omega, by omega, by omega⟩

/-- Witness for C7 at a concrete single-numeric specification. -/
theorem C7_single_and_dash_validation_witness :
    isErr (parsePorts (str "80")) = true ↔ ((80 : Int) < 1 ∨ 65535 < (80 : Int)) :=
  C7_single_and_dash_validation.1 (str "80") 80 (by decide) (by decide) (by decide)

/-- C3 counterexample: the claim says `parseIPRange` fails on every text that is
not a valid dotted-quad / CIDR / dash-range, yet `foo/24` — none of those —
is accepted (the CIDR arm never validates the network text: `ipToInt('foo')`
coerces to 0). -/
theorem C3_counterexample_accepts_invalid :
    specValidRangeText (str "foo/24") = false ∧ isErr (parseIPRange (str "foo/24")) = false := by
  decide

/-- C3 (amended): `parseIPRange` fails exactly when, for the trimmed input:
it contains `/` and `parseInt` of the text after the first `/` yields a number
p with p < 0 or p > 32 (a NaN prefix is accepted, NaN comparisons being false,
and the network text is never validated); or it contains no `/` but contains
`-` and the JS coercion `ipToInt` of the first dash part exceeds that of the
second (the parts are not validated as dotted-quads); or it contains neither
and is not a valid dotted-quad. -/
theorem C3_failure_condition (s : JStr) :
    isErr (parseIPRange s) = true ↔
      ((jsTrim s).contains '/' = true ∧
        (∃ p : Int, jsParseInt (((splitOnChar '/' (jsTrim s)).drop 1).headD []) = some p ∧
          (p < 0 ∨ 32 < p))) ∨
      ((jsTrim s).contains '/' = false ∧ (jsTrim s).contains '-' = true ∧
        ipToInt (((splitOnChar '-' (jsTrim s)).map jsTrim).headD []) >
          ipToInt ((((splitOnChar '-' (jsTrim s)).map jsTrim).drop 1).headD [])) ∨
      ((jsTrim s).contains '/' = false ∧ (jsTrim s).contains '-' = false ∧
        isValidIP (jsTrim s) = false) := by
  by_cases h1 : (jsTrim s).contains '/' = true
  · cases hp : jsParseInt (((splitOnChar '/' (jsTrim s)).drop 1).headD []) with
    | none =>
      have hEval : isErr (parseIPRange s) = false := by
        simp only [parseIPRange]
        rw [if_pos h1]
        simp only [hp]
        rfl
      rw [hEval]
      refine iff_of_false (by simp) ?_
      rintro (⟨-, p', hp', -⟩ | ⟨hf, -, -⟩ | ⟨hf, -, -⟩)
      · cases hp'
      · rw [h1] at hf; cases hf
      · rw [h1] at hf; cases hf
    | some p =>
      by_cases hr : p < 0 ∨ 32 < p
      · have hEval : isErr (parseIPRange s) = true := by
          simp only [parseIPRange]
          rw [if_pos h1]
          simp only [hp]
          rw [if_pos (by simp; omega)]
          rfl
        rw [hEval]
        exact iff_of_true rfl (Or.inl ⟨h1, p, rfl, hr⟩)
      · push_neg at hr
        have hEval : isErr (parseIPRange s) = false := by
          simp only [parseIPRange]
          rw [if_pos h1]
          simp only [hp]
          rw [if_neg (by simp; omega)]
          rfl
        rw [hEval]
        refine iff_of_false (by simp) ?_
        rintro (⟨-, p', hp', hr'⟩ | ⟨hf, -, -⟩ | ⟨hf, -, -⟩)
        · cases hp'
          omega
        · rw [h1] at hf; cases hf
        · rw [h1] at hf; cases hf
  · have h1' : (jsTrim s).contains '/' = false := by simpa using h1
    by_cases h2 : (jsTrim s).contains '-' = true
    · by_cases h3 : ipToInt (((splitOnChar '-' (jsTrim s)).map jsTrim).headD []) >
          ipToInt ((((splitOnChar '-' (jsTrim s)).map jsTrim).drop 1).headD [])
      · have hEval : isErr (parseIPRange s) = true := by
          simp only [parseIPRange]
          rw [if_neg (by intro hc; rw [h1'] at hc; cases hc), if_pos h2, if_pos h3]
          rfl
        rw [hEval]
        exact iff_of_true rfl (Or.inr (Or.inl ⟨h1', h2, h3⟩))
      · have hEval : isErr (parseIPRange s) = false := by
          simp only [parseIPRange]
          rw [if_neg (by intro hc; rw [h1'] at hc; cases hc), if_pos h2, if_neg h3]
          rfl
        rw [hEval]
        refine iff_of_false (by simp) ?_
        rintro (⟨hf, -⟩ | ⟨-, -, hgt⟩ | ⟨-, hf, -⟩)
        · rw [h1'] at hf; cases hf
        · exact h3 hgt
        · rw [h2] at hf; cases hf
    · have h2' : (jsTrim s).contains '-' = false := by simpa using h2
      by_cases h4 : isValidIP (jsTrim s) = true
      · have hEval : isErr (parseIPRange s) = false := by
          simp only [parseIPRange]
          rw [if_neg (by intro hc; rw [h1'] at hc; cases hc), if_neg (by intro hc; rw [h2'] at hc; cases hc), if_pos h4]
          rfl
        rw [hEval]
        refine iff_of_false (by simp) ?_
        rintro (⟨hf, -⟩ | ⟨-, hf, -⟩ | ⟨-, -, hf⟩)
        · rw [h1'] at hf; cases hf
        · rw [h2'] at hf; cases hf
        · rw [h4] at hf; cases hf
      · have h4' : isValidIP (jsTrim s) = false := by simpa using h4
        have hEval : isErr (parseIPRange s) = true := by
          simp only [parseIPRange]
          rw [if_neg (by intro hc; rw [h1'] at hc; cases hc), if_neg (by intro hc; rw [h2'] at hc; cases hc), if_neg (by intro hc; rw [h4'] at hc; cases hc)]
          rfl
        rw [hEval]
        exact iff_of_true rfl (Or.inr (Or.inr ⟨h1', h2', h4'⟩))

/-- Witness for the amended C3 at a concrete malformed single-IP input. -/
theorem C3_failure_condition_witness :
    isErr (parseIPRange (str "300.1.2.3")) = true ↔
      ((jsTrim (str "300.1.2.3")).contains '/' = true ∧
        (∃ p : Int,
          jsParseInt (((splitOnChar '/' (jsTrim (str "300.1.2.3"))).drop 1).headD []) = some p ∧
          (p < 0 ∨ 32 < p))) ∨
      ((jsTrim (str "300.1.2.3")).contains '/' = false ∧
        (jsTrim (str "300.1.2.3")).contains '-' = true ∧
        ipToInt (((splitOnChar '-' (jsTrim (str "300.1.2.3"))).map jsTrim).headD []) >
          ipToInt ((((splitOnChar '-' (jsTrim (str "300.1.2.3"))).map jsTrim).drop 1).headD [])) ∨
      ((jsTrim (str "300.1.2.3")).contains '/' = false ∧
        (jsTrim (str "300.1.2.3")).contains '-' = false ∧
        isValidIP (jsTrim (str "300.1.2.3")) = false) :=
  C3_failure_condition (str "300.1.2.3")

/-- C9: the two IP conversions (identical in `NetworkUtils` and `IPUtils`) are
mutually inverse: `ipToInt (intToIP n) = n` for every 32-bit value `n`, and
`intToIP (ipToInt s) = s` for every canonical dotted-quad string (four decimal
octets in [0, 255] without leading zeros). -/
theorem C9_ip_conversion_roundtrip :
    (∀ n : Nat, n < 4294967296 → ipToInt (intToIP ((n : Nat) : Int)) = n) ∧
    (∀ s : JStr, canonicalQuad s = true → intToIP ((ipToInt s : Nat) : Int) = s) :=
  ⟨fun _ h => ipToInt_intToIP h, fun _ h => intToIP_ipToInt h⟩

/-- Witness for C9 at `192.168.1.1` in both directions. -/
theorem C9_ip_conversion_roundtrip_witness :
    ipToInt (intToIP ((3232235777 : Nat) : Int)) = 3232235777 ∧
    intToIP ((ipToInt (str "10.0.0.1") : Nat) : Int) = str "10.0.0.1" :=
  ⟨C9_ip_conversion_roundtrip.1 3232235777 (by norm_num),
   C9_ip_conversion_roundtrip.2 (str "10.0.0.1") (by decide)⟩

end NetScan
